import Mathlib

/-!
Verification of the cepValidator repository (src/models/validator.py, src/run.py).

The validator receives a pandas DataFrame loaded by `pd.read_excel` (so the
row index is the RangeIndex 0, 1, ..., n-1) and runs, in order:
`_check_columns_quantity` (exactly 9 columns), `_check_values` (comma-to-period
coercion of the two weight columns, `_check_data_types`, the two conflict
passes of `_find_conflited_ranges`, the per-group cut/concat/sort_index cycle,
and `_check_numbers_errors`), and `_check_columns_name`.

The embedding has two layers.

Layer 2 (this section): the rows seen by `_find_conflited_ranges` after type
coercion succeeded: the two postal columns hold int64 values, the two weight
columns hold float64 values (possibly NaN), and column position 9 is the text
column 'Erros na Linha'.

Layer 1 (further below): raw tables of named columns of cells, with column
dtypes, the comma-to-period coercion, the dtype check, the cell/row/header
styling signals, and the full `style_dataframe` pipeline.
-/

/-- Value of a float64 cell after coercion: NaN (as produced by
`.str.replace` on a non-string element of an object column) or an ordinary
number, modelled as a rational. -/
inductive FloatVal
  | nan
  | val (q : Rat)
deriving DecidableEq

/-- Strict `<` on float64 values; any comparison against NaN is false,
as in numpy. -/
def FloatVal.ltB : FloatVal → FloatVal → Bool
  | .val a, .val b => decide (a < b)
  | _, _ => false

/-- One row of the rate table as `_find_conflited_ranges` sees it:
`idx` is the pandas index label of the row (the loader `pd.read_excel`
yields the RangeIndex 0..n-1), then the four range columns, and `erros` is
the content of the 'Erros na Linha' column (column position 9 of the frame,
which `dataframe.iloc[key, 9]` addresses). -/
structure RRow where
  idx : Nat
  cepInicio : Int
  cepFim : Int
  pesoInicio : FloatVal
  pesoFim : FloatVal
  erros : String
deriving DecidableEq

/-- The message prefix chosen in `_find_conflited_ranges`:
`' + PESO: '` when `peso` is true, `'CEP: '` otherwise. -/
def msgOf (peso : Bool) : String :=
  if peso then " + PESO: " else "CEP: "

/-- The row filter of `_find_conflited_ranges`:
`(column2 > dataframe[col1]) & (dataframe[col2] > column2)` where
`column2` is row `r`'s upper bound and `o` ranges over the frame's rows.
For `peso = false` the columns are CepInicio/CepFim (int64), for
`peso = true` they are PesoInicio/PesoFim (float64). -/
def conflictKeep (peso : Bool) (r o : RRow) : Bool :=
  if peso then FloatVal.ltB o.pesoInicio r.pesoFim && FloatVal.ltB r.pesoFim o.pesoFim
  else decide (o.cepInicio < r.cepFim) && decide (r.cepFim < o.cepFim)

/-- `conflicts = dataframe.loc[(column2 > dataframe[col1]) & (dataframe[col2] > column2)].index`:
the index labels of the rows of `df` whose range strictly contains row `r`'s
upper bound. -/
def conflictsOf (peso : Bool) (r : RRow) (df : List RRow) : List Nat :=
  (df.filter (conflictKeep peso r)).map RRow.idx

/-- `', '.join(map(str, conflicts))`. -/
def joinIdx (l : List Nat) : String :=
  String.intercalate ", " (l.map toString)

/-- The per-row effect of one iteration of the loop in
`_find_conflited_ranges`, with the conflicts taken against `df0`:
if any conflicting row exists, append the message and the comma-joined
conflict indices to the row's 'Erros na Linha' cell, else leave the row. -/
def applyUpd (peso : Bool) (df0 : List RRow) (r : RRow) : RRow :=
  if 0 < (conflictsOf peso r df0).length then
    { r with erros := r.erros ++ msgOf peso ++ joinIdx (conflictsOf peso r df0) }
  else r

/-- One iteration of the loop of `_find_conflited_ranges` at positional key
`key`: the row's two range values come from the snapshot `df0`
(`dataframe[[col1, col2]].values` is materialised before the loop),
`conflicts` is recomputed against the current frame `df`, and when conflicts
exist `dataframe.iloc[key, 9] = dataframe.iloc[key, 9] + message + ', '.join(...)`
rewrites the current row's 'Erros na Linha' cell. -/
def passStep (peso : Bool) (df0 df : List RRow) (key : Nat) : List RRow :=
  match df0[key]? with
  | none => df
  | some r =>
      if 0 < (conflictsOf peso r df).length then
        df.set key
          { df.getD key r with
            erros := (df.getD key r).erros ++ msgOf peso ++ joinIdx (conflictsOf peso r df) }
      else df

/-- The loop of `_find_conflited_ranges`:
`for key, value in enumerate(dataframe[[col1, col2]].values)` runs
`passStep` for the positional keys 0, 1, ..., n-1 in order. -/
def passLoop (peso : Bool) (df0 : List RRow) : List RRow :=
  (List.range df0.length).foldl (passStep peso df0) df0

/-- A frame handed to the conflict detector: its rows plus whether the
'Erros na Linha' column is already present.  When it is absent the `erros`
field of the rows is meaningless and is reset by the detector. -/
structure DFrame where
  rows : List RRow
  hasErros : Bool
deriving DecidableEq

/-- `if 'Erros na Linha' not in dataframe.columns: dataframe['Erros na Linha'] = ''` —
the lazy creation of the error column as empty text. -/
def ensureRows (t : DFrame) : List RRow :=
  if t.hasErros then t.rows else t.rows.map (fun r => { r with erros := "" })

/-- `_find_conflited_ranges(columns, peso, dataframe)`. -/
def findConflitedRangesF (peso : Bool) (t : DFrame) : DFrame :=
  ⟨passLoop peso (ensureRows t), true⟩

/-- Row selector of the Pass-2 cut:
`(dataframe['CepInicio'] == low_interval) & (dataframe['CepFim'] == high_interval)`. -/
def keyEqB (k : Int × Int) (r : RRow) : Bool :=
  decide (r.cepInicio = k.1) && decide (r.cepFim = k.2)

/-- Rows of `df` whose (CepInicio, CepFim) pair equals row `r`'s pair:
the postal-code group of `r`. -/
def cepGroupB (df : List RRow) (r : RRow) : List RRow :=
  df.filter (fun o => decide (o.cepInicio = r.cepInicio) && decide (o.cepFim = r.cepFim))

/-- Insertion into a list sorted by ascending index label. -/
def insertIdxSorted (r : RRow) : List RRow → List RRow
  | [] => [r]
  | x :: xs => if r.idx ≤ x.idx then r :: x :: xs else x :: insertIdxSorted r xs

/-- `complete_dataframe.sort_index()`: sort the rows by their pandas index
label (insertion sort; the labels in play are distinct, so any sort agrees). -/
def sortByIdx (l : List RRow) : List RRow :=
  l.foldr insertIdxSorted []

/-- `__get_unique_values(['CepInicio', 'CepFim'], dataframe)`: the distinct
(CepInicio, CepFim) pairs of the frame.  Python builds them through
`list(set(...))`, whose order is arbitrary; the theorems below are proved
for an arbitrary enumeration, and the executable pipeline uses `dedup`. -/
def uniqueCepPairs (rows : List RRow) : List (Int × Int) :=
  (rows.map (fun r => (r.cepInicio, r.cepFim))).dedup

/-- The Pass-2 cycle of `_check_values` given the list of distinct postal
pairs: cut the frame per pair, run `_find_conflited_ranges(..., peso=True)`
on each cut, concatenate the cuts, and `sort_index()`. -/
def pass2Groups (keys : List (Int × Int)) (t1 : DFrame) : DFrame :=
  ⟨sortByIdx
      (keys.map (fun k =>
        (findConflitedRangesF true ⟨t1.rows.filter (keyEqB k), t1.hasErros⟩).rows)).flatten,
    true⟩

/-- The conflict-detection stage of `_check_values` (lines 73-87 of
validator.py) with the enumeration order of the distinct postal pairs as a
parameter: Pass 1 over the whole frame, then the per-group Pass 2. -/
def detectorStage (keys : List (Int × Int)) (t : DFrame) : DFrame :=
  pass2Groups keys (findConflitedRangesF false t)

/-- The conflict-detection stage as executed, with the distinct postal pairs
taken from the frame that Pass 1 produced. -/
def runDetector (t : DFrame) : DFrame :=
  let t1 := findConflitedRangesF false t
  pass2Groups (uniqueCepPairs t1.rows) t1

/-- The columns of a row that `_find_conflited_ranges` reads (everything
except 'Erros na Linha', the only field it writes). -/
def stripR (r : RRow) : Nat × Int × Int × FloatVal × FloatVal :=
  (r.idx, r.cepInicio, r.cepFim, r.pesoInicio, r.pesoFim)

/-- Full per-row description of the detector stage: Pass 1 appends the
CEP message computed from the whole frame, Pass 2 appends the PESO message
computed only from the row's exact postal-code group. -/
def fullAnnot (rows0 : List RRow) (r : RRow) : RRow :=
  let df1 := rows0.map (applyUpd false rows0)
  let r1 := applyUpd false rows0 r
  applyUpd true (cepGroupB df1 r1) r1

/-! ### The loop of `_find_conflited_ranges` equals an independent per-row update

The loop mutates only column 9 ('Erros na Linha') of the frame while the
filter reads only the range columns, so the sequential in-place updates are
equivalent to updating every row independently against the incoming frame. -/

/-- `conflictKeep` on the stripped view of a row. -/
def conflictKeepS (peso : Bool) (r : RRow) (s : Nat × Int × Int × FloatVal × FloatVal) : Bool :=
  if peso then FloatVal.ltB s.2.2.2.1 r.pesoFim && FloatVal.ltB r.pesoFim s.2.2.2.2
  else decide (s.2.1 < r.cepFim) && decide (r.cepFim < s.2.2.1)

lemma conflictKeep_eq_strip (peso : Bool) (r o : RRow) :
    conflictKeep peso r o = conflictKeepS peso r (stripR o) := rfl

lemma conflictsOf_eq_strip (peso : Bool) (r : RRow) (df : List RRow) :
    conflictsOf peso r df
      = ((df.map stripR).filter (conflictKeepS peso r)).map Prod.fst := by
  induction df with
  | nil => rfl
  | cons a l ih =>
      simp only [conflictsOf, List.filter_cons, List.map_cons] at *
      rw [conflictKeep_eq_strip]
      by_cases h : conflictKeepS peso r (stripR a)
      · simp only [h, if_pos, if_true]
        simp only [List.map_cons]
        refine congrArg (fun t => _ :: t) ?_
        exact ih
      · simp only [h, if_neg, if_false, Bool.false_eq_true]
        exact ih

lemma conflictsOf_congr (peso : Bool) (r : RRow) {df df' : List RRow}
    (h : df.map stripR = df'.map stripR) :
    conflictsOf peso r df = conflictsOf peso r df' := by
  rw [conflictsOf_eq_strip, conflictsOf_eq_strip, h]

lemma passStep_of_get {df0 : List RRow} {key : Nat} {r : RRow}
    (peso : Bool) (df : List RRow) (h : df0[key]? = some r) :
    passStep peso df0 df key =
      if 0 < (conflictsOf peso r df).length then
        df.set key
          { df.getD key r with
            erros := (df.getD key r).erros ++ msgOf peso ++ joinIdx (conflictsOf peso r df) }
      else df := by
  unfold passStep
  rw [h]

lemma stripR_applyUpd (peso : Bool) (df0 : List RRow) (r : RRow) :
    stripR (applyUpd peso df0 r) = stripR r := by
  unfold applyUpd
  split <;> rfl

lemma map_strip_map_applyUpd (peso : Bool) (df0 l : List RRow) :
    (l.map (applyUpd peso df0)).map stripR = l.map stripR := by
  rw [List.map_map]
  exact List.map_congr_left (fun a _ => stripR_applyUpd peso df0 a)

lemma passFold_eq (peso : Bool) (df0 : List RRow) :
    ∀ m, m ≤ df0.length →
      (List.range m).foldl (passStep peso df0) df0
        = (df0.take m).map (applyUpd peso df0) ++ df0.drop m := by
  intro m
  induction m with
  | zero => simp
  | succ m ih =>
      intro hm
      have hm' : m ≤ df0.length := Nat.le_of_succ_le hm
      have hmlt : m < df0.length := hm
      rw [List.range_succ, List.foldl_append, ih hm']
      set B := (df0.take m).map (applyUpd peso df0) with hB
      have hBlen : B.length = m := by
        simp [hB, List.length_take, Nat.min_eq_left hm']
      have hget : df0[m]? = some df0[m] := List.getElem?_eq_getElem hmlt
      have hstrip : (B ++ df0.drop m).map stripR = df0.map stripR := by
        rw [List.map_append, hB, map_strip_map_applyUpd, ← List.map_append,
          List.take_append_drop]
      have hdropm : df0.drop m = df0[m] :: df0.drop (m + 1) :=
        List.drop_eq_getElem_cons hmlt
      have hcurr : (B ++ df0.drop m)[m]? = some df0[m] := by
        rw [List.getElem?_append_right (le_of_eq hBlen), hBlen,
          Nat.sub_self, hdropm, List.getElem?_cons_zero]
      have hgetD : (B ++ df0.drop m).getD m df0[m] = df0[m] := by
        rw [List.getD_eq_getElem?_getD, hcurr]
        rfl
      have hcs : conflictsOf peso df0[m] (B ++ df0.drop m)
          = conflictsOf peso df0[m] df0 :=
        conflictsOf_congr peso df0[m] hstrip
      have htake : df0.take (m + 1) = df0.take m ++ [df0[m]] := by
        rw [List.take_succ, hget]
        rfl
      rw [List.foldl_cons, List.foldl_nil, passStep_of_get peso _ hget]
      simp only [hgetD, hcs]
      by_cases hpos : 0 < (conflictsOf peso df0[m] df0).length
      · rw [if_pos hpos]
        have hAlen : m < (B ++ df0.drop m).length := by
          rw [List.length_append, hBlen, List.length_drop]
          omega
        rw [List.set_eq_take_append_cons_drop, if_pos hAlen,
          List.take_left' hBlen]
        have hdrop1 : (B ++ df0.drop m).drop (m + 1) = df0.drop (m + 1) := by
          have h1 : (B ++ df0.drop m).drop (m + 1)
              = ((B ++ df0.drop m).drop m).drop 1 := by
            rw [List.drop_drop, Nat.add_comm]
          rw [h1, List.drop_left' hBlen, hdropm]
          rfl
        rw [hdrop1, htake, List.map_append]
        simp only [List.map_cons, List.map_nil, List.append_assoc,
          List.cons_append, List.nil_append]
        refine congrArg (fun t => B ++ t :: df0.drop (m + 1)) ?_
        unfold applyUpd
        rw [if_pos hpos]
      · rw [if_neg hpos, htake, List.map_append]
        have hfr : applyUpd peso df0 df0[m] = df0[m] := by
          unfold applyUpd
          rw [if_neg hpos]
        simp only [List.map_cons, List.map_nil, hfr, List.append_assoc,
          List.cons_append, List.nil_append]
        rw [← hdropm]

/-- The sequential, mutating loop of `_find_conflited_ranges` updates every
row independently: it equals the map that appends to each row the message
computed from the incoming frame. -/
lemma passLoop_eq_map (peso : Bool) (df0 : List RRow) :
    passLoop peso df0 = df0.map (applyUpd peso df0) := by
  unfold passLoop
  rw [passFold_eq peso df0 df0.length (le_refl _), List.take_length,
    List.drop_length, List.append_nil]

/-! ### Sorting by index label -/

/-- Non-strict comparison of rows by pandas index label. -/
def rleIdx (a b : RRow) : Prop := a.idx ≤ b.idx

/-- Strict comparison of rows by pandas index label. -/
def rltIdx (a b : RRow) : Prop := a.idx < b.idx

instance : IsAntisymm RRow rltIdx :=
  ⟨fun _ _ h h2 => absurd (Nat.lt_trans h h2) (Nat.lt_irrefl _)⟩

lemma insertIdxSorted_perm (r : RRow) (l : List RRow) :
    List.Perm (insertIdxSorted r l) (r :: l) := by
  induction l with
  | nil => exact List.Perm.refl _
  | cons x xs ih =>
      unfold insertIdxSorted
      by_cases h : r.idx ≤ x.idx
      · rw [if_pos h]
      · rw [if_neg h]
        exact (ih.cons x).trans (List.Perm.swap r x xs)

lemma sortByIdx_perm (l : List RRow) : List.Perm (sortByIdx l) l := by
  induction l with
  | nil => exact List.Perm.refl _
  | cons x xs ih =>
      exact (insertIdxSorted_perm x (sortByIdx xs)).trans (ih.cons x)

lemma insertIdxSorted_pairwise (r : RRow) (l : List RRow) (h : l.Pairwise rleIdx) :
    (insertIdxSorted r l).Pairwise rleIdx := by
  induction l with
  | nil => simp [insertIdxSorted, List.pairwise_cons]
  | cons x xs ih =>
      rcases List.pairwise_cons.mp h with ⟨hx, hxs⟩
      unfold insertIdxSorted
      by_cases hr : r.idx ≤ x.idx
      · rw [if_pos hr]
        refine List.pairwise_cons.mpr ⟨?_, h⟩
        intro y hy
        rcases List.mem_cons.mp hy with rfl | hy
        · exact hr
        · exact Nat.le_trans hr (hx y hy)
      · rw [if_neg hr]
        refine List.pairwise_cons.mpr ⟨?_, ih hxs⟩
        intro y hy
        have hy2 := (insertIdxSorted_perm r xs).mem_iff.mp hy
        rcases List.mem_cons.mp hy2 with rfl | hy2
        · exact Nat.le_of_lt (Nat.lt_of_not_le hr)
        · exact hx y hy2

lemma sortByIdx_pairwise (l : List RRow) : (sortByIdx l).Pairwise rleIdx := by
  induction l with
  | nil => exact List.Pairwise.nil
  | cons x xs ih => exact insertIdxSorted_pairwise x (sortByIdx xs) ih

/-- `sort_index()` recovers the uniquely determined arrangement: if the rows
are a permutation of a list whose index labels strictly increase, sorting by
index yields exactly that list. -/
lemma sortByIdx_eq_of_perm {l A : List RRow} (hp : List.Perm l A)
    (hs : A.Pairwise rltIdx) : sortByIdx l = A := by
  have h1 : List.Perm (sortByIdx l) A := (sortByIdx_perm l).trans hp
  have hnodA : (A.map RRow.idx).Nodup :=
    List.pairwise_map.mpr (hs.imp (fun hab => Nat.ne_of_lt hab))
  have hnod : ((sortByIdx l).map RRow.idx).Nodup :=
    ((h1.map RRow.idx).nodup_iff).mpr hnodA
  have h2 : (sortByIdx l).Pairwise (fun a b => a.idx ≠ b.idx) :=
    List.pairwise_map.mp hnod
  have h3 : (sortByIdx l).Pairwise rltIdx :=
    ((sortByIdx_pairwise l).and h2).imp (fun hab => Nat.lt_of_le_of_ne hab.1 hab.2)
  exact List.eq_of_perm_of_sorted h1 h3 hs

/-! ### The per-group partition is a permutation of the whole frame -/

lemma flatten_filter_perm (keys : List (Int × Int)) (L : List RRow)
    (hnd : keys.Nodup) (hcov : ∀ r ∈ L, (r.cepInicio, r.cepFim) ∈ keys) :
    List.Perm (keys.map (fun k => L.filter (keyEqB k))).flatten L := by
  induction keys generalizing L with
  | nil =>
      cases L with
      | nil => exact List.Perm.refl _
      | cons a l => exact absurd (hcov a (List.mem_cons_self a l)) (List.not_mem_nil _)
  | cons k ks ih =>
      simp only [List.map_cons, List.flatten_cons]
      have hks : ∀ k2 ∈ ks,
          L.filter (keyEqB k2) = (L.filter (fun r => !keyEqB k r)).filter (keyEqB k2) := by
        intro k2 hk2
        rw [List.filter_filter]
        refine (List.filter_congr ?_)
        intro r _
        cases hkr : keyEqB k r
        · simp
        · have hkey : r.cepInicio = k.1 ∧ r.cepFim = k.2 := by
            simpa [keyEqB] using hkr
          have hne : k2 ≠ k := by
            rintro rfl
            exact (List.nodup_cons.mp hnd).1 hk2
          have hfalse : keyEqB k2 r = false := by
            rcases k with ⟨k1, kk2⟩
            rcases k2 with ⟨m1, m2⟩
            simp only [keyEqB, hkey.1, hkey.2, Bool.and_eq_false_iff, decide_eq_false_iff_not]
            by_contra hcon
            push_neg at hcon
            exact hne (by simp [Prod.ext_iff, hcon.1, hcon.2])
          simp [hfalse, hkr]
      have hflat : (ks.map (fun k2 => L.filter (keyEqB k2))).flatten
          = (ks.map (fun k2 => (L.filter (fun r => !keyEqB k r)).filter (keyEqB k2))).flatten :=
        congrArg List.flatten (List.map_congr_left hks)
      rw [hflat]
      have hcov2 : ∀ r ∈ L.filter (fun r => !keyEqB k r), (r.cepInicio, r.cepFim) ∈ ks := by
        intro r hr
        rcases List.mem_filter.mp hr with ⟨hrL, hrk⟩
        rcases List.mem_cons.mp (hcov r hrL) with hk | hk
        · exfalso
          have : keyEqB k r = true := by
            rcases k with ⟨k1, kk2⟩
            simp only [keyEqB]
            simp only [Prod.mk.injEq] at hk
            simp [hk.1, hk.2]
          simp [this] at hrk
        · exact hk
      have ihh := ih (L.filter (fun r => !keyEqB k r)) (List.nodup_cons.mp hnd).2 hcov2
      exact (List.Perm.append_left (L.filter (keyEqB k)) ihh).trans
        (List.filter_append_perm (keyEqB k) L)

/-! ### The detector stage as an independent per-row annotation -/

lemma idx_applyUpd (peso : Bool) (df : List RRow) (r : RRow) :
    (applyUpd peso df r).idx = r.idx := by
  unfold applyUpd
  split <;> rfl

lemma keyEqB_applyUpd (k : Int × Int) (peso : Bool) (df : List RRow) (r : RRow) :
    keyEqB k (applyUpd peso df r) = keyEqB k r := by
  unfold applyUpd
  split <;> rfl

lemma cep_applyUpd (peso : Bool) (df : List RRow) (r : RRow) :
    (applyUpd peso df r).cepInicio = r.cepInicio
      ∧ (applyUpd peso df r).cepFim = r.cepFim := by
  unfold applyUpd
  split <;> exact ⟨rfl, rfl⟩

lemma idx_map_applyUpd (peso : Bool) (df l : List RRow) :
    (l.map (applyUpd peso df)).map RRow.idx = l.map RRow.idx := by
  rw [List.map_map]
  exact List.map_congr_left (fun a _ => idx_applyUpd peso df a)

lemma strip_ensure (t : DFrame) :
    (ensureRows t).map stripR = t.rows.map stripR := by
  unfold ensureRows
  split
  · rfl
  · rw [List.map_map]
    exact List.map_congr_left (fun a _ => rfl)

lemma idx_ensure (t : DFrame) :
    (ensureRows t).map RRow.idx = t.rows.map RRow.idx := by
  unfold ensureRows
  split
  · rfl
  · rw [List.map_map]
    exact List.map_congr_left (fun a _ => rfl)

lemma stripR_fields {a b : RRow} (h : stripR a = stripR b) :
    a.idx = b.idx ∧ a.cepInicio = b.cepInicio ∧ a.cepFim = b.cepFim := by
  unfold stripR at h
  simp only [Prod.mk.injEq] at h
  exact ⟨h.1, h.2.1, h.2.2.1⟩

lemma filter_map_of_pres (g : RRow → RRow) (p : RRow → Bool)
    (hg : ∀ r, p (g r) = p r) (l : List RRow) :
    (l.map g).filter p = (l.filter p).map g := by
  induction l with
  | nil => rfl
  | cons a t ih =>
      simp only [List.map_cons, List.filter_cons, hg a]
      cases h : p a
      · simpa using ih
      · simp [ih]

/-- Core description of the conflict-detection stage, for any enumeration
`keys` of the distinct postal pairs (no duplicates, covering every row) and
any frame whose index labels strictly increase (as the loader's RangeIndex
does): the stage annotates every row independently with `fullAnnot` and
keeps the rows in their incoming order. -/
lemma detector_rows_eq (keys : List (Int × Int)) (t : DFrame)
    (hnd : keys.Nodup)
    (hcov : ∀ r ∈ t.rows, (r.cepInicio, r.cepFim) ∈ keys)
    (hidx : (t.rows.map RRow.idx).Pairwise (· < ·)) :
    (detectorStage keys t).rows = (ensureRows t).map (fullAnnot (ensureRows t)) := by
  set rows0 := ensureRows t with hrows0
  have hcov0 : ∀ r ∈ rows0, (r.cepInicio, r.cepFim) ∈ keys := by
    intro r hr
    have hmem : stripR r ∈ rows0.map stripR := List.mem_map_of_mem stripR hr
    rw [strip_ensure] at hmem
    rcases List.mem_map.mp hmem with ⟨x, hx, hsx⟩
    rcases stripR_fields hsx with ⟨_, h1, h2⟩
    rw [← h1, ← h2]
    exact hcov x hx
  have hidx0 : (rows0.map RRow.idx).Pairwise (· < ·) := by
    rw [hrows0, idx_ensure]
    exact hidx
  set f := applyUpd false rows0 with hf
  set A1 := rows0.map f with hA1
  set g := fun r => applyUpd true (cepGroupB A1 r) r with hg
  set A2 := A1.map g with hA2
  have hkeyg : ∀ k r, keyEqB k (g r) = keyEqB k r := by
    intro k r
    rw [hg]
    exact keyEqB_applyUpd k true (cepGroupB A1 r) r
  have hpass1 : findConflitedRangesF false t = ⟨A1, true⟩ := by
    unfold findConflitedRangesF
    rw [passLoop_eq_map]
  have hparts : ∀ k, passLoop true (A1.filter (keyEqB k)) = A2.filter (keyEqB k) := by
    intro k
    rw [passLoop_eq_map]
    have hcut : ∀ r ∈ A1.filter (keyEqB k),
        applyUpd true (A1.filter (keyEqB k)) r = g r := by
      intro r hr
      have hkr : keyEqB k r = true := List.of_mem_filter hr
      have hk1 : r.cepInicio = k.1 ∧ r.cepFim = k.2 := by
        simpa [keyEqB] using hkr
      have hgrp : cepGroupB A1 r = A1.filter (keyEqB k) := by
        unfold cepGroupB keyEqB
        refine congrArg (List.filter · A1) ?_
        funext o
        rw [hk1.1, hk1.2]
      show applyUpd true (A1.filter (keyEqB k)) r = applyUpd true (cepGroupB A1 r) r
      rw [hgrp]
    rw [List.map_congr_left hcut, ← filter_map_of_pres g (keyEqB k) (hkeyg k) A1]
  have hstage : (detectorStage keys t).rows
      = sortByIdx (keys.map (fun k => A2.filter (keyEqB k))).flatten := by
    unfold detectorStage pass2Groups
    rw [hpass1]
    refine congrArg (fun l => sortByIdx (List.flatten l)) ?_
    refine List.map_congr_left ?_
    intro k _
    unfold findConflitedRangesF ensureRows
    simp only [if_pos]
    exact hparts k
  have hcovA2 : ∀ r ∈ A2, (r.cepInicio, r.cepFim) ∈ keys := by
    intro r hr
    rcases List.mem_map.mp hr with ⟨a1, ha1, rfl⟩
    rcases List.mem_map.mp ha1 with ⟨a0, ha0, rfl⟩
    have e1 := (cep_applyUpd true (cepGroupB A1 (f a0)) (f a0)).1
    have e2 := (cep_applyUpd true (cepGroupB A1 (f a0)) (f a0)).2
    have e3 := (cep_applyUpd false rows0 a0).1
    have e4 := (cep_applyUpd false rows0 a0).2
    rw [hg]
    rw [e1, e2, hf, e3, e4]
    exact hcov0 a0 ha0
  have hperm : List.Perm (keys.map (fun k => A2.filter (keyEqB k))).flatten A2 :=
    flatten_filter_perm keys A2 hnd hcovA2
  have hidxg : ∀ r, (g r).idx = r.idx := by
    intro r
    rw [hg]
    exact idx_applyUpd true (cepGroupB A1 r) r
  have hidxf : ∀ r, (f r).idx = r.idx := by
    intro r
    rw [hf]
    exact idx_applyUpd false rows0 r
  have hidxA2 : A2.map RRow.idx = rows0.map RRow.idx := by
    rw [hA2, hA1, List.map_map, List.map_map]
    refine List.map_congr_left ?_
    intro a _
    show ((g (f a)).idx) = a.idx
    rw [hidxg, hidxf]
  have hsorted : A2.Pairwise rltIdx := by
    have hp2 := hidx0
    rw [← hidxA2] at hp2
    rw [List.pairwise_map] at hp2
    exact hp2
  have hsort : sortByIdx (keys.map (fun k => A2.filter (keyEqB k))).flatten = A2 :=
    sortByIdx_eq_of_perm hperm hsorted
  rw [hstage, hsort, hA2, hA1, List.map_map]
  rfl

lemma idx_fullAnnot (rows0 : List RRow) (r : RRow) :
    (fullAnnot rows0 r).idx = r.idx := by
  show (applyUpd true
      (cepGroupB (rows0.map (applyUpd false rows0)) (applyUpd false rows0 r))
      (applyUpd false rows0 r)).idx = r.idx
  rw [idx_applyUpd, idx_applyUpd]

/-- The (CepInicio, CepFim) pair of a row. -/
def keyPair (r : RRow) : Int × Int := (r.cepInicio, r.cepFim)

lemma keyPair_applyUpd (peso : Bool) (df : List RRow) (r : RRow) :
    keyPair (applyUpd peso df r) = keyPair r := by
  unfold applyUpd keyPair
  split <;> rfl

lemma keyPair_map_ensure (t : DFrame) :
    (ensureRows t).map keyPair = t.rows.map keyPair := by
  unfold ensureRows
  split
  · rfl
  · rw [List.map_map]
    exact List.map_congr_left (fun a _ => rfl)

/-- `runDetector` is `detectorStage` for the postal pairs extracted from the
frame Pass 1 produced; those pairs are duplicate-free and cover every row,
so the core description applies whenever the index labels strictly
increase. -/
lemma runDetector_rows_eq (t : DFrame)
    (hidx : (t.rows.map RRow.idx).Pairwise (· < ·)) :
    (runDetector t).rows = (ensureRows t).map (fullAnnot (ensureRows t)) := by
  have hrun : runDetector t
      = detectorStage (uniqueCepPairs (findConflitedRangesF false t).rows) t := rfl
  rw [hrun]
  refine detector_rows_eq _ t (List.nodup_dedup _) ?_ hidx
  intro r hr
  unfold uniqueCepPairs
  rw [List.mem_dedup]
  have hmaps : (findConflitedRangesF false t).rows.map (fun r => (r.cepInicio, r.cepFim))
      = t.rows.map keyPair := by
    show (passLoop false (ensureRows t)).map keyPair = t.rows.map keyPair
    rw [passLoop_eq_map, List.map_map, ← keyPair_map_ensure t]
    exact List.map_congr_left (fun a _ => keyPair_applyUpd false (ensureRows t) a)
  rw [hmaps]
  exact List.mem_map_of_mem keyPair hr

/-! ### Claims C1, C2, C3, C8: the conflict detector -/

/-- C1.  Pass 1 of the Range Conflict Detector: for every table that reaches
conflict detection and every row `r` at position `i` (with the error column
ensured), the output row at `i` is `r` with exactly one message
`'CEP: ' + ', '.join(conflict indices)` appended when the conflict set —
the rows `o` with `r.cepFim > o.cepInicio` and `o.cepFim > r.cepFim` — is
nonempty, and `r` unchanged when it is empty. -/
theorem c1_pass1_single_cep_message (t : DFrame) (i : Nat) (r : RRow)
    (h : (ensureRows t)[i]? = some r) :
    (findConflitedRangesF false t).rows[i]? = some
      (if 0 < (conflictsOf false r (ensureRows t)).length then
        { r with erros := r.erros ++ "CEP: " ++ joinIdx (conflictsOf false r (ensureRows t)) }
      else r) := by
  show (passLoop false (ensureRows t))[i]? = _
  rw [passLoop_eq_map, List.getElem?_map, h]
  rfl

/-- Two-row table of the spec's Pass-1 example: postal ranges (1000, 2000)
and (1500, 2500). -/
def exPass1 : DFrame :=
  ⟨[⟨0, 1000, 2000, .val 1, .val 2, ""⟩, ⟨1, 1500, 2500, .val 3, .val 4, ""⟩], false⟩

/-- Witness for C1 at the spec's example: row 0's upper bound 2000 falls
strictly inside (1500, 2500), so row 0 is flagged `'CEP: 1'`; row 1's upper
bound 2500 falls inside no range, so row 1 is untouched. -/
theorem c1_pass1_single_cep_message_witness :
    (findConflitedRangesF false exPass1).rows[0]?
        = some ⟨0, 1000, 2000, .val 1, .val 2, "CEP: 1"⟩
      ∧ (findConflitedRangesF false exPass1).rows[1]?
        = some ⟨1, 1500, 2500, .val 3, .val 4, ""⟩ := by
  constructor
  · have h0 := c1_pass1_single_cep_message exPass1 0
      ⟨0, 1000, 2000, .val 1, .val 2, ""⟩ rfl
    exact h0.trans (by decide)
  · have h1 := c1_pass1_single_cep_message exPass1 1
      ⟨1, 1500, 2500, .val 3, .val 4, ""⟩ rfl
    exact h1.trans (by decide)

/-- C2.  Pass 2 of the Range Conflict Detector: rows are grouped by exact
equality of the (CepInicio, CepFim) pair (`cepGroupB`), the containment test
of Pass 1 is re-run inside the group on (PesoInicio, PesoFim) with message
`' + PESO: '`, and rows of different groups are never compared — the output
row at position `i` is `fullAnnot` of the input row, whose PESO part is
computed exclusively from the row's own postal-code group.  The statement
holds for every duplicate-free, covering enumeration `keys` of the distinct
postal pairs, so it is independent of Python's set order. -/
theorem c2_pass2_weight_conflicts_per_group (keys : List (Int × Int)) (t : DFrame)
    (hnd : keys.Nodup)
    (hcov : ∀ r ∈ t.rows, (r.cepInicio, r.cepFim) ∈ keys)
    (hidx : (t.rows.map RRow.idx).Pairwise (· < ·))
    (i : Nat) (r : RRow) (h : (ensureRows t)[i]? = some r) :
    (detectorStage keys t).rows[i]? = some (fullAnnot (ensureRows t) r) := by
  rw [detector_rows_eq keys t hnd hcov hidx, List.getElem?_map, h]
  rfl

/-- Two-row table of the spec's Pass-2 example: identical postal range
(1000, 2000), weight ranges (0, 10) and (5, 20). -/
def exPass2 : DFrame :=
  ⟨[⟨0, 1000, 2000, .val 0, .val 10, ""⟩, ⟨1, 1000, 2000, .val 5, .val 20, ""⟩], false⟩

/-- Witness for C2 at the spec's example: within the single postal group,
row 0's WeightEnd 10 falls strictly inside (5, 20), so row 0 receives
`' + PESO: 1'`; row 1 receives nothing; no CEP message appears because
identical postal ranges fail the strict containment test. -/
theorem c2_pass2_weight_conflicts_per_group_witness :
    (detectorStage [(1000, 2000)] exPass2).rows[0]?
        = some ⟨0, 1000, 2000, .val 0, .val 10, " + PESO: 1"⟩
      ∧ (detectorStage [(1000, 2000)] exPass2).rows[1]?
        = some ⟨1, 1000, 2000, .val 5, .val 20, ""⟩ := by
  constructor
  · have h0 := c2_pass2_weight_conflicts_per_group [(1000, 2000)] exPass2
      (by decide) (by decide) (by decide) 0 ⟨0, 1000, 2000, .val 0, .val 10, ""⟩ rfl
    exact h0.trans (by decide)
  · have h1 := c2_pass2_weight_conflicts_per_group [(1000, 2000)] exPass2
      (by decide) (by decide) (by decide) 1 ⟨1, 1000, 2000, .val 5, .val 20, ""⟩ rfl
    exact h1.trans (by decide)

/-- C3.  Row-order invariant: for every table that reaches conflict
detection, after Pass 2 partitions the rows into postal-code groups,
concatenates the groups and sorts by index, the output index sequence
equals the input index sequence position by position. -/
theorem c3_row_order_invariant (keys : List (Int × Int)) (t : DFrame)
    (hnd : keys.Nodup)
    (hcov : ∀ r ∈ t.rows, (r.cepInicio, r.cepFim) ∈ keys)
    (hidx : (t.rows.map RRow.idx).Pairwise (· < ·)) :
    (detectorStage keys t).rows.map RRow.idx = t.rows.map RRow.idx := by
  rw [detector_rows_eq keys t hnd hcov hidx, List.map_map]
  have hcomp : (ensureRows t).map (RRow.idx ∘ fullAnnot (ensureRows t))
      = (ensureRows t).map RRow.idx :=
    List.map_congr_left (fun a _ => idx_fullAnnot (ensureRows t) a)
  rw [hcomp, idx_ensure]

/-- Witness for C3: a three-row table with two postal groups keeps its
index sequence 0, 1, 2 through the partition/concatenate/sort cycle. -/
theorem c3_row_order_invariant_witness :
    (detectorStage [(1000, 2000), (1500, 2500)]
        ⟨[⟨0, 1000, 2000, .val 0, .val 10, ""⟩,
          ⟨1, 1500, 2500, .val 5, .val 20, ""⟩,
          ⟨2, 1000, 2000, .val 1, .val 2, ""⟩], false⟩).rows.map RRow.idx
      = [0, 1, 2] := by
  have h := c3_row_order_invariant [(1000, 2000), (1500, 2500)]
    ⟨[⟨0, 1000, 2000, .val 0, .val 10, ""⟩,
      ⟨1, 1500, 2500, .val 5, .val 20, ""⟩,
      ⟨2, 1000, 2000, .val 1, .val 2, ""⟩], false⟩
    (by decide) (by decide) (by decide)
  exact h.trans (by decide)

lemma erros_applyUpd (peso : Bool) (df : List RRow) (r : RRow) :
    (applyUpd peso df r).erros = r.erros ++
      (if 0 < (conflictsOf peso r df).length then
        msgOf peso ++ joinIdx (conflictsOf peso r df)
      else "") := by
  unfold applyUpd
  split
  · rw [String.append_assoc]
  · rw [String.append_empty]

/-- C8.  Append-only invariant on 'Erros na Linha': on a frame whose error
column does not yet exist, the detector first creates it as empty text, and
every write concatenates onto the existing text, so a row flagged by both
passes ends the stage holding its Pass-1 CEP message directly followed by
its Pass-2 PESO message, in that order, with nothing overwritten. -/
theorem c8_rowerrors_append_only (keys : List (Int × Int)) (t : DFrame)
    (hnd : keys.Nodup)
    (hcov : ∀ r ∈ t.rows, (r.cepInicio, r.cepFim) ∈ keys)
    (hidx : (t.rows.map RRow.idx).Pairwise (· < ·))
    (hnew : t.hasErros = false)
    (i : Nat) (r : RRow) (h : t.rows[i]? = some r) :
    ((detectorStage keys t).rows[i]?).map RRow.erros = some (
      (if 0 < (conflictsOf false { r with erros := "" } (ensureRows t)).length then
        "CEP: " ++ joinIdx (conflictsOf false { r with erros := "" } (ensureRows t))
      else "")
      ++
      (if 0 < (conflictsOf true (applyUpd false (ensureRows t) { r with erros := "" })
            (cepGroupB ((ensureRows t).map (applyUpd false (ensureRows t)))
              (applyUpd false (ensureRows t) { r with erros := "" }))).length then
        " + PESO: " ++ joinIdx (conflictsOf true (applyUpd false (ensureRows t) { r with erros := "" })
            (cepGroupB ((ensureRows t).map (applyUpd false (ensureRows t)))
              (applyUpd false (ensureRows t) { r with erros := "" })))
      else "")) := by
  have h0 : (ensureRows t)[i]? = some { r with erros := "" } := by
    unfold ensureRows
    rw [hnew]
    simp only [Bool.false_eq_true, if_false, List.getElem?_map, h, Option.map_some']
  rw [detector_rows_eq keys t hnd hcov hidx, List.getElem?_map, h0]
  show some ((fullAnnot (ensureRows t) { r with erros := "" }).erros) = _
  refine congrArg some ?_
  have hfa : fullAnnot (ensureRows t) { r with erros := "" }
      = applyUpd true
          (cepGroupB ((ensureRows t).map (applyUpd false (ensureRows t)))
            (applyUpd false (ensureRows t) { r with erros := "" }))
          (applyUpd false (ensureRows t) { r with erros := "" }) := rfl
  rw [hfa, erros_applyUpd, erros_applyUpd]
  have e1 : ({ r with erros := "" } : RRow).erros = "" := rfl
  have e2 : ∀ s : String, "" ++ s = s := fun _ => rfl
  have m1 : msgOf false = "CEP: " := rfl
  have m2 : msgOf true = " + PESO: " := rfl
  rw [e1, e2, m1, m2]

/-- Three-row table on which row 0 is flagged by both passes. -/
def exBoth : DFrame :=
  ⟨[⟨0, 1000, 2000, .val 0, .val 10, ""⟩,
    ⟨1, 1000, 2000, .val 5, .val 20, ""⟩,
    ⟨2, 1500, 2500, .val 1, .val 2, ""⟩], false⟩

/-- Witness for C8: row 0 of `exBoth` is flagged by Pass 1 (CEP conflict
with row 2) and then by Pass 2 (weight conflict with row 1 inside the
(1000, 2000) group); the final cell holds both messages concatenated in
pass order. -/
theorem c8_rowerrors_append_only_witness :
    ((detectorStage [(1000, 2000), (1500, 2500)] exBoth).rows[0]?).map RRow.erros
      = some "CEP: 2 + PESO: 1" := by
  have h := c8_rowerrors_append_only [(1000, 2000), (1500, 2500)] exBoth
    (by decide) (by decide) (by decide) rfl 0
    ⟨0, 1000, 2000, .val 0, .val 10, ""⟩ rfl
  exact h.trans (by decide)

/-!
## Layer 1: raw tables, coercion, dtype verification, styling signals

A loaded DataFrame is a list of named columns of cells.  A cell read by
`pd.read_excel` is an integer, a float, or a string; NaN cells produced by
the coercion are represented separately.  The styling collaborators
(`highlight_headers`, `error_color_css` from models/highlight_errors.py)
only supply constant CSS strings, so a marked cell/row/header is modelled
as the boolean `true`.
-/

/-- One cell of a loaded table. -/
inductive Cell
  | int (n : Int)
  | float (q : Rat)
  | nanC
  | str (s : String)
deriving DecidableEq

/-- Is the cell a Python string? -/
def Cell.isStr : Cell → Bool
  | .str _ => true
  | _ => false

/-- Is the cell an integer? -/
def Cell.isInt : Cell → Bool
  | .int _ => true
  | _ => false

/-- The numpy dtypes the validator distinguishes. -/
inductive DType
  | int64
  | float64
  | object
deriving DecidableEq

/-- pandas dtype of a column: object when empty or when any cell is a
string, int64 when every cell is an integer, float64 otherwise (floats,
NaN, or integers upcast next to floats). -/
def colDType (col : List Cell) : DType :=
  if col.isEmpty then .object
  else if col.any Cell.isStr then .object
  else if col.all Cell.isInt then .int64
  else .float64

/-- Is `c` one of the decimal digits? -/
def isDigitChar (c : Char) : Bool :=
  decide ('0' ≤ c) && decide (c ≤ '9')

/-- Value of a digit string. -/
def digitsToNat (cs : List Char) : Nat :=
  cs.foldl (fun a c => 10 * a + (c.toNat - 48)) 0

/-- Python `float(s)`, restricted to plain decimal literals (optional sign,
digits, at most one period, at least one digit), which covers every value
the validator's comma-to-period coercion can meet; exponents, infinities
and surrounding whitespace are outside the modelled input space.  `none`
models the raised ValueError. -/
def pyFloat (s : String) : Option Rat :=
  let cs := s.toList
  let neg := cs.headD ' ' == '-'
  let body := if cs.headD ' ' == '-' || cs.headD ' ' == '+' then cs.tail else cs
  let ip := body.takeWhile (fun c => decide (c ≠ '.'))
  let fp := (body.dropWhile (fun c => decide (c ≠ '.'))).tail
  if ip.all isDigitChar && fp.all isDigitChar && (!ip.isEmpty || !fp.isEmpty) then
    let mag : Int := (digitsToNat ip : Int) * ((10 : Int) ^ fp.length) + (digitsToNat fp : Int)
    some (mkRat (if neg then -mag else mag) ((10 : Nat) ^ fp.length))
  else none

/-- `value.replace(',', '.')` for the one-character pattern the validator
uses: every comma of the string becomes a period. -/
def commaToPeriod (s : String) : String :=
  ⟨s.data.map (fun c => if c = ',' then '.' else c)⟩

/-- Effect of `.str.replace(',', '.')` followed by `astype(float)` on one
cell of an object-dtype column: a string cell has its commas replaced and
is parsed (`none` = ValueError), a non-string cell was already turned into
NaN by the `.str` accessor. -/
def coerceCell (c : Cell) : Option Cell :=
  match c with
  | .str s => (pyFloat (commaToPeriod s)).map Cell.float
  | _ => some Cell.nanC

/-- Cell-wise coercion of a whole column; fails as soon as one cell fails. -/
def coerceCells : List Cell → Option (List Cell)
  | [] => some []
  | c :: cs =>
      match coerceCell c, coerceCells cs with
      | some v, some vs => some (v :: vs)
      | _, _ => none

/-- `self.dataframe[column].str.replace(',', '.').astype(float)`: the
`.str` accessor raises AttributeError unless the column's dtype is object,
so a purely numeric column fails before any cell is read; on an object
column the cell-wise coercion runs.  `none` models the exception caught by
the `try` in `_check_values`. -/
def coerceWeightColumn (col : List Cell) : Option (List Cell) :=
  if colDType col = .object then coerceCells col else none

/-- A loaded DataFrame: named columns of cells, in order. -/
structure RawTable where
  cols : List (String × List Cell)
deriving DecidableEq

/-- `list(self.dataframe.columns.values)`. -/
def RawTable.colNames (t : RawTable) : List String :=
  t.cols.map Prod.fst

/-- Column lookup by name (pandas label lookup; first match). -/
def RawTable.getCol? (t : RawTable) (n : String) : Option (List Cell) :=
  (t.cols.find? (fun c => decide (c.fst = n))).map Prod.snd

/-- Cells of the named column, empty when absent. -/
def RawTable.colCells (t : RawTable) (n : String) : List Cell :=
  (t.getCol? n).getD []

/-- `column in self.dataframe.columns`. -/
def RawTable.hasCol (t : RawTable) (n : String) : Bool :=
  (t.getCol? n).isSome

/-- `self.dataframe[column] = cells` for an existing column. -/
def RawTable.setCol (t : RawTable) (n : String) (cells : List Cell) : RawTable :=
  ⟨t.cols.map (fun c => if c.fst = n then (c.fst, cells) else c)⟩

/-- `self.columns_name`: the canonical 9 column names. -/
def canonicalNames : List String :=
  ["Nome", "Descricao", "CepInicio", "CepFim", "PesoInicio", "PesoFim", "Valor", "Prazo", "DiaUtil"]

/-- The `columns` list of `_check_values` / `_check_numbers_errors`. -/
def numericCols : List String :=
  ["CepInicio", "CepFim", "PesoInicio", "PesoFim", "Valor", "Prazo"]

/-- The exceptions the validator can raise: `IndexError('Missing columns')`
from `_check_columns_quantity` and the `TypeError` of `_check_data_types`,
which names the offending column, the expected dtype and the actual one. -/
inductive PipeErr
  | missingColumns
  | wrongDtype (col : String) (expected actual : DType)
deriving DecidableEq

/-- The `data_types` list of `_check_data_types`. -/
def data_types : List DType :=
  [.object, .object, .int64, .int64, .float64, .float64, .int64, .int64, .object]

/-- The loop of `_check_data_types`: enumerate the columns positionally and
raise at the first position `key` with `data_types[key] != dtype` and
`1 < key < 6`. -/
def checkDataTypesAux : Nat → List (String × List Cell) → Except PipeErr Unit
  | _, [] => .ok ()
  | key, c :: rest =>
      if data_types.getD key .object ≠ colDType c.snd ∧ 1 < key ∧ key < 6 then
        .error (.wrongDtype c.fst (data_types.getD key .object) (colDType c.snd))
      else checkDataTypesAux (key + 1) rest

/-- `_check_data_types`. -/
def checkDataTypes (t : RawTable) : Except PipeErr Unit :=
  checkDataTypesAux 0 t.cols

/-- Reading an int64 cell (a column that passed the dtype check at an
int64 position holds only integer cells, so the fallback is unreachable). -/
def cellToInt : Cell → Int
  | .int n => n
  | _ => 0

/-- Reading a float64 cell (after coercion a weight column holds only
floats and NaN; integers compare by value, strings are unreachable). -/
def cellToFV : Cell → FloatVal
  | .float q => .val q
  | .int n => .val n
  | .nanC => .nan
  | .str _ => .nan

/-- The detector's view of the coerced table: one `RRow` per row position,
with the RangeIndex label `i` and the four range columns. -/
def toRows (t : RawTable) : List RRow :=
  (List.range (t.colCells "CepInicio").length).map (fun i =>
    ⟨i, cellToInt ((t.colCells "CepInicio").getD i (.int 0)),
      cellToInt ((t.colCells "CepFim").getD i (.int 0)),
      cellToFV ((t.colCells "PesoInicio").getD i .nanC),
      cellToFV ((t.colCells "PesoFim").getD i .nanC), ""⟩)

/-- The frame after the detector stage: every original column reordered to
follow the detector's output rows (each output row carries its original
label `idx`), plus the 'Erros na Linha' column holding the accumulated
messages. -/
def writeBack (t : RawTable) (rows : List RRow) : RawTable :=
  ⟨t.cols.map (fun c => (c.fst, rows.map (fun r => c.snd.getD r.idx (.str ""))))
    ++ [("Erros na Linha", rows.map (fun r => Cell.str r.erros))]⟩

/-- `format_wrong_dtype` on one cell: `float(value.replace(',', '.'))` when
the value is a string, `float(value)` otherwise; a cell is marked with
`error_color_css` exactly when the parse raises, which only a
non-numeric string does. -/
def cellMark : Cell → Bool
  | .str s => (pyFloat (commaToPeriod s)).isNone
  | _ => false

/-- `self.dataframe.style.apply(format_wrong_dtype)`: per column, mark each
cell of the six numeric columns whose value does not parse. -/
def formatWrongDtype (t : RawTable) : List (List Bool) :=
  t.cols.map (fun c =>
    if c.fst ∈ numericCols then c.snd.map cellMark else c.snd.map (fun _ => false))

/-- `row['Erros na Linha'] != ''` on one cell of the error column. -/
def errCellFlag : Cell → Bool
  | .str s => decide (s ≠ "")
  | _ => true

/-- `self.dataframe.apply(format_range, axis=1)`: per row, flag the whole
row when its 'Erros na Linha' cell is non-empty.  `format_range` reads
`row['Erros na Linha']`; when that column does not exist the lookup raises
`KeyError('Erros na Linha')` as soon as the styler is rendered, modelled by
the `Except.error` carrying the missing key. -/
def formatRange (t : RawTable) : Except String (List Bool) :=
  match t.getCol? "Erros na Linha" with
  | none => .error "Erros na Linha"
  | some cells => .ok (cells.map errCellFlag)

/-- Result of `_check_values`: the mutated frame, the `all_columns` flag,
and the two styling signals registered by `_check_numbers_errors`
(absent when the method was skipped). -/
structure CVOut where
  table : RawTable
  allColumns : Bool
  cellMarks : Option (List (List Bool))
  rowMarks : Option (Except String (List Bool))

/-- The coercion loop `for column in columns[2:4]` of `_check_values`:
try to coerce PesoInicio then PesoFim; a successful attempt assigns the
coerced column back, a failed one leaves the column unchanged and clears
the `dtype` flag, without stopping the loop. -/
def coerceStep (acc : RawTable × Bool) (col : String) : RawTable × Bool :=
  match coerceWeightColumn (acc.1.colCells col) with
  | some cells => (acc.1.setCol col cells, acc.2)
  | none => (acc.1, false)

def coerceStage (t : RawTable) : RawTable × Bool :=
  ((numericCols.drop 2).take 2).foldl coerceStep (t, true)

/-- `_check_values`: when the six numeric columns are present by name, run
the coercion loop; if it fully succeeded, run `_check_data_types` (whose
exception propagates), the two conflict passes and the per-group
cut/concat/sort cycle; in every non-raising case finish with
`_check_numbers_errors`; otherwise only clear `all_columns`. -/
def checkValues (t : RawTable) : Except PipeErr CVOut :=
  if numericCols.all (fun c => t.hasCol c) then
    if (coerceStage t).2 then
      match checkDataTypes (coerceStage t).1 with
      | .error e => .error e
      | .ok _ =>
          .ok ⟨writeBack (coerceStage t).1 (runDetector ⟨toRows (coerceStage t).1, false⟩).rows,
            true,
            some (formatWrongDtype (writeBack (coerceStage t).1
              (runDetector ⟨toRows (coerceStage t).1, false⟩).rows)),
            some (formatRange (writeBack (coerceStage t).1
              (runDetector ⟨toRows (coerceStage t).1, false⟩).rows))⟩
    else
      .ok ⟨(coerceStage t).1, true, some (formatWrongDtype (coerceStage t).1),
        some (formatRange (coerceStage t).1)⟩
  else
    .ok ⟨t, false, none, none⟩

/-- `_check_columns_name`: when the original header list differs from the
canonical one, `map_index` marks every header of the current frame whose
name is not a member of the canonical list; otherwise no marking pass runs. -/
def headerMarksOf (origNames curNames : List String) : List Bool :=
  if origNames = canonicalNames then curNames.map (fun _ => false)
  else curNames.map (fun n => decide (n ∉ canonicalNames))

/-- The annotated output of `style_dataframe`: the final frame, the
`all_columns` flag, and the three styling signals handed to the
presentation collaborator. -/
structure Styled where
  table : RawTable
  allColumns : Bool
  cellMarks : Option (List (List Bool))
  rowMarks : Option (Except String (List Bool))
  headerMarks : List Bool

/-- `style_dataframe`: `_check_columns_quantity` (raising
`IndexError('Missing columns')` when the column count differs from 9),
then `_check_values` (whose exceptions propagate), then
`_check_columns_name` on the resulting frame. -/
def styleDataframe (t : RawTable) : Except PipeErr Styled :=
  if canonicalNames.length ≠ t.colNames.length then .error .missingColumns
  else
    match checkValues t with
    | .error e => .error e
    | .ok o =>
        .ok ⟨o.table, o.allColumns, o.cellMarks, o.rowMarks,
          headerMarksOf t.colNames o.table.colNames⟩

/-! ### Claims C4, C5: coercion failure and schema failure -/

/-- Nine-column table whose PesoInicio cell `'abc'` defeats the
comma-to-period parse. -/
def exBadWeight : RawTable := ⟨[
  ("Nome", [.str "a"]), ("Descricao", [.str "b"]),
  ("CepInicio", [.int 1000]), ("CepFim", [.int 2000]),
  ("PesoInicio", [.str "abc"]), ("PesoFim", [.str "10"]),
  ("Valor", [.int 5]), ("Prazo", [.int 3]), ("DiaUtil", [.str "Sim"])]⟩

/-- C4.  On the failing input `exBadWeight` (PesoInicio cell `'abc'`), the
coercion failure makes `_check_values` skip the Range Conflict Detector,
so no 'Erros na Linha' column is ever created and no conflict message is
written; the Numeric Format Flagger still runs and marks exactly the bad
cell (column position 4, row 0).  But the flagger's per-row function
`format_range` reads `row['Erros na Linha']`, which does not exist on this
path, so rendering the styled output raises `KeyError('Erros na Linha')` —
the component does raise, contradicting the claim's "never raises", and
the annotated spreadsheet is never produced (run.py answers 500). -/
theorem c4_flagger_marks_cell_but_rowpass_raises :
    (styleDataframe exBadWeight).map (fun s => s.table.getCol? "Erros na Linha")
        = .ok none
      ∧ (styleDataframe exBadWeight).map (fun s => s.cellMarks)
        = .ok (some [[false], [false], [false], [false], [true],
            [false], [false], [false], [false]])
      ∧ (styleDataframe exBadWeight).map (fun s => s.rowMarks)
        = .ok (some (.error "Erros na Linha")) :=
  ⟨rfl, rfl, rfl⟩

/-- C5 (amended).  A table whose column count differs from 9 makes
`_check_columns_quantity` raise `IndexError('Missing columns')`; the
exception propagates out of `style_dataframe`, so no value-level check runs,
no RowErrors is computed, and `_check_columns_name` never runs either. -/
theorem c5_wrong_column_count_aborts_everything (t : RawTable)
    (h : t.colNames.length ≠ 9) :
    styleDataframe t = .error .missingColumns := by
  unfold styleDataframe
  rw [if_pos]
  intro heq
  have h9 : canonicalNames.length = 9 := rfl
  rw [h9] at heq
  exact h heq.symm

/-- Eight-column table with a non-canonical header name. -/
def exEightCols : RawTable := ⟨[
  ("Nome", [.str "a"]), ("WRONG", [.str "b"]),
  ("CepInicio", [.int 1000]), ("CepFim", [.int 2000]),
  ("PesoInicio", [.str "1,5"]), ("PesoFim", [.str "10"]),
  ("Valor", [.int 5]), ("Prazo", [.int 3])]⟩

/-- Counterexample for C5 as stated: on the eight-column table the pipeline
stops at the schema error and never returns a styled result, so header-name
checking does not "still run afterwards in degraded mode" — no header mark
is ever produced for the mismatched name 'WRONG'. -/
theorem c5_counterexample_header_check_never_runs :
    styleDataframe exEightCols = .error .missingColumns
      ∧ ∀ s : Styled, styleDataframe exEightCols ≠ .ok s := by
  constructor
  · rfl
  · intro s hs
    rw [show styleDataframe exEightCols = .error .missingColumns from rfl] at hs
    exact Except.noConfusion hs

/-- Witness for C5 (amended) at the concrete eight-column table. -/
theorem c5_wrong_column_count_aborts_everything_witness :
    styleDataframe exEightCols = .error PipeErr.missingColumns :=
  c5_wrong_column_count_aborts_everything exEightCols (by decide)

/-! ### Helper lemmas about raw-table operations -/

lemma coerceStep_pair (tt : RawTable) (b : Bool) (col : String) :
    coerceStep (tt, b) col =
      match coerceWeightColumn (tt.colCells col) with
      | some cells => (tt.setCol col cells, b)
      | none => (tt, false) := rfl

lemma coerceStage_eq (t : RawTable) :
    coerceStage t = coerceStep (coerceStep (t, true) "PesoInicio") "PesoFim" := rfl

lemma setCol_colNames (t : RawTable) (n : String) (cells : List Cell) :
    (t.setCol n cells).colNames = t.colNames := by
  unfold RawTable.setCol RawTable.colNames
  rw [List.map_map]
  refine List.map_congr_left ?_
  intro a _
  by_cases h : a.fst = n <;> simp [h]

lemma fst_setEntry (n : String) (cells : List Cell) (a : String × List Cell) :
    (if a.fst = n then (a.fst, cells) else a).fst = a.fst := by
  by_cases h : a.fst = n <;> simp [h]

lemma find?_snd_set_ne {n m : String} (cells : List Cell) (hm : m ≠ n) :
    ∀ l : List (String × List Cell),
      ((l.map (fun c => if c.fst = n then (c.fst, cells) else c)).find?
          (fun c => decide (c.fst = m))).map Prod.snd
        = (l.find? (fun c => decide (c.fst = m))).map Prod.snd := by
  intro l
  induction l with
  | nil => rfl
  | cons a l ih =>
      simp only [List.map_cons, List.find?_cons, fst_setEntry]
      cases hp : decide (a.fst = m) with
      | false => exact ih
      | true =>
          have ham : a.fst = m := of_decide_eq_true hp
          have han : ¬a.fst = n := fun hh => hm (ham ▸ hh ▸ rfl)
          rw [if_neg han]

lemma getCol?_setCol_ne (t : RawTable) {n m : String} (cells : List Cell) (hm : m ≠ n) :
    (t.setCol n cells).getCol? m = t.getCol? m :=
  find?_snd_set_ne cells hm t.cols

lemma find?_snd_set_self {n : String} (cells : List Cell) :
    ∀ l : List (String × List Cell),
      (l.find? (fun c => decide (c.fst = n))).isSome = true →
      ((l.map (fun c => if c.fst = n then (c.fst, cells) else c)).find?
          (fun c => decide (c.fst = n))).map Prod.snd = some cells := by
  intro l
  induction l with
  | nil => intro h; simp at h
  | cons a l ih =>
      intro h
      simp only [List.map_cons, List.find?_cons, fst_setEntry]
      cases hp : decide (a.fst = n) with
      | true =>
          have han : a.fst = n := of_decide_eq_true hp
          rw [if_pos han]
          rfl
      | false =>
          simp only [List.find?_cons, hp] at h
          exact ih h

lemma getCol?_setCol_self (t : RawTable) (n : String) (cells : List Cell)
    (h : t.hasCol n = true) :
    (t.setCol n cells).getCol? n = some cells := by
  refine find?_snd_set_self cells t.cols ?_
  unfold RawTable.hasCol RawTable.getCol? at h
  cases hf : t.cols.find? (fun c => decide (c.fst = n)) with
  | none => rw [hf] at h; simp at h
  | some c => rfl

lemma hasCol_iff_mem (t : RawTable) (m : String) :
    t.hasCol m = true ↔ m ∈ t.colNames := by
  unfold RawTable.hasCol RawTable.getCol? RawTable.colNames
  constructor
  · intro h
    cases hf : t.cols.find? (fun c => decide (c.fst = m)) with
    | none => rw [hf] at h; simp at h
    | some c =>
        have hmem := List.mem_of_find?_eq_some hf
        have hp := List.find?_some hf
        simp only [decide_eq_true_eq] at hp
        exact hp ▸ List.mem_map_of_mem Prod.fst hmem
  · intro hmem
    rcases List.mem_map.mp hmem with ⟨c, hc, rfl⟩
    cases hf : t.cols.find? (fun cc => decide (cc.fst = c.fst)) with
    | none =>
        exfalso
        have := List.find?_eq_none.mp hf c hc
        simp at this
    | some cc => rfl

lemma coerceCells_length : ∀ {l v : List Cell}, coerceCells l = some v → v.length = l.length := by
  intro l
  induction l with
  | nil => intro v h; cases h; rfl
  | cons c cs ih =>
      intro v h
      unfold coerceCells at h
      cases hc : coerceCell c with
      | none => rw [hc] at h; exact absurd h (by simp)
      | some x =>
          rw [hc] at h
          cases hcs : coerceCells cs with
          | none => rw [hcs] at h; exact absurd h (by simp)
          | some vs =>
              rw [hcs] at h
              cases h
              simp [ih hcs]

lemma coerceCell_not_str {c x : Cell} (h : coerceCell c = some x) : x.isStr = false := by
  cases c with
  | str s =>
      simp only [coerceCell] at h
      cases hp : pyFloat (commaToPeriod s) with
      | none => rw [hp] at h; exact absurd h (by simp)
      | some q =>
          rw [hp] at h
          simp only [Option.map_some'] at h
          simp only [Option.some.injEq] at h
          rw [← h]
          rfl
  | int n => simp only [coerceCell] at h; simp only [Option.some.injEq] at h; rw [← h]; rfl
  | float q => simp only [coerceCell] at h; simp only [Option.some.injEq] at h; rw [← h]; rfl
  | nanC => simp only [coerceCell] at h; simp only [Option.some.injEq] at h; rw [← h]; rfl

lemma coerceCells_not_str : ∀ {l v : List Cell}, coerceCells l = some v →
    ∀ c ∈ v, c.isStr = false := by
  intro l
  induction l with
  | nil => intro v h; cases h; intro c hc; exact absurd hc (List.not_mem_nil c)
  | cons c cs ih =>
      intro v h
      unfold coerceCells at h
      cases hc : coerceCell c with
      | none => rw [hc] at h; exact absurd h (by simp)
      | some x =>
          rw [hc] at h
          cases hcs : coerceCells cs with
          | none => rw [hcs] at h; exact absurd h (by simp)
          | some vs =>
              rw [hcs] at h
              cases h
              intro d hd
              rcases List.mem_cons.mp hd with rfl | hd2
              · exact coerceCell_not_str hc
              · exact ih hcs d hd2

lemma colDType_not_object {l : List Cell} (hne : l ≠ [])
    (hstr : ∀ c ∈ l, c.isStr = false) : colDType l ≠ DType.object := by
  unfold colDType
  rw [if_neg (by simp [hne]), if_neg]
  · split <;> simp
  · rw [List.any_eq_true]
    rintro ⟨c, hc, hcs⟩
    rw [hstr c hc] at hcs
    exact Bool.false_ne_true hcs

lemma coerceWeightColumn_some_nonstr {l v : List Cell}
    (h : coerceWeightColumn l = some v) : coerceCells l = some v := by
  unfold coerceWeightColumn at h
  split at h
  · exact h
  · exact absurd h (by simp)

lemma coerceWeightColumn_none_of_numeric {l : List Cell} (hne : l ≠ [])
    (hstr : ∀ c ∈ l, c.isStr = false) : coerceWeightColumn l = none := by
  unfold coerceWeightColumn
  rw [if_neg (colDType_not_object hne hstr)]

/-- Whenever PesoInicio fails to coerce, the whole stage is marked failed:
the flag never returns to true, and the frame is at most changed by a
successful PesoFim coercion. -/
lemma coerceStage_flag_false (t : RawTable)
    (h : coerceWeightColumn (t.colCells "PesoInicio") = none) :
    (coerceStage t).2 = false ∧
      ((coerceStage t).1 = t ∨
        ∃ c2, coerceWeightColumn (t.colCells "PesoFim") = some c2 ∧
          (coerceStage t).1 = t.setCol "PesoFim" c2) := by
  have h1 : coerceStep (t, true) "PesoInicio" = (t, false) := by
    rw [coerceStep_pair, h]
  rw [coerceStage_eq, h1, coerceStep_pair]
  cases hc : coerceWeightColumn (t.colCells "PesoFim") with
  | none => exact ⟨rfl, Or.inl rfl⟩
  | some c2 => exact ⟨rfl, Or.inr ⟨c2, rfl, rfl⟩⟩

/-- `_check_values` when coercion failed: the detector is skipped and only
the styling signals of `_check_numbers_errors` are produced, on the frame
as the coercion loop left it. -/
lemma checkValues_skip (t : RawTable)
    (hall : numericCols.all (fun c => t.hasCol c) = true)
    (hflag : (coerceStage t).2 = false) :
    checkValues t = .ok ⟨(coerceStage t).1, true,
      some (formatWrongDtype (coerceStage t).1),
      some (formatRange (coerceStage t).1)⟩ := by
  unfold checkValues
  rw [if_pos hall, if_neg]
  rw [hflag]
  exact Bool.false_ne_true

/-- `style_dataframe` on a 9-column table, given the `_check_values`
outcome. -/
lemma styleDataframe_of_checkValues (t : RawTable) (h9 : t.colNames.length = 9)
    {o : CVOut} (hcv : checkValues t = .ok o) :
    styleDataframe t = .ok ⟨o.table, o.allColumns, o.cellMarks, o.rowMarks,
      headerMarksOf t.colNames o.table.colNames⟩ := by
  unfold styleDataframe
  rw [if_neg, hcv]
  intro hne
  rw [h9] at hne
  exact hne rfl

lemma styleDataframe_error_of_checkValues (t : RawTable) (h9 : t.colNames.length = 9)
    {e : PipeErr} (hcv : checkValues t = .error e) :
    styleDataframe t = .error e := by
  unfold styleDataframe
  rw [if_neg, hcv]
  intro hne
  rw [h9] at hne
  exact hne rfl

/-- `getCol? 'Erros na Linha'` is untouched by the coercion loop, which only
reassigns the PesoInicio / PesoFim columns. -/
lemma getCol?_coerceStage_erros (t : RawTable) :
    (coerceStage t).1.getCol? "Erros na Linha" = t.getCol? "Erros na Linha" := by
  rw [coerceStage_eq]
  cases hc1 : coerceWeightColumn (t.colCells "PesoInicio") with
  | none =>
      have h1 : coerceStep (t, true) "PesoInicio" = (t, false) := by
        rw [coerceStep_pair, hc1]
      rw [h1, coerceStep_pair]
      cases hc2 : coerceWeightColumn (t.colCells "PesoFim") with
      | none => rfl
      | some c2 => exact getCol?_setCol_ne t c2 (by decide)
  | some c1 =>
      have h1 : coerceStep (t, true) "PesoInicio" = (t.setCol "PesoInicio" c1, true) := by
        rw [coerceStep_pair, hc1]
      rw [h1, coerceStep_pair]
      cases hc2 : coerceWeightColumn ((t.setCol "PesoInicio" c1).colCells "PesoFim") with
      | none => exact getCol?_setCol_ne t c1 (by decide)
      | some c2 =>
          rw [getCol?_setCol_ne _ c2 (by decide), getCol?_setCol_ne t c1 (by decide)]

/-- The coercion loop never renames or adds columns. -/
lemma coerceStage_colNames (t : RawTable) :
    (coerceStage t).1.colNames = t.colNames := by
  rw [coerceStage_eq]
  cases hc1 : coerceWeightColumn (t.colCells "PesoInicio") with
  | none =>
      have h1 : coerceStep (t, true) "PesoInicio" = (t, false) := by
        rw [coerceStep_pair, hc1]
      rw [h1, coerceStep_pair]
      cases hc2 : coerceWeightColumn (t.colCells "PesoFim") with
      | none => rfl
      | some c2 => exact setCol_colNames t "PesoFim" c2
  | some c1 =>
      have h1 : coerceStep (t, true) "PesoInicio" = (t.setCol "PesoInicio" c1, true) := by
        rw [coerceStep_pair, hc1]
      rw [h1, coerceStep_pair]
      cases hc2 : coerceWeightColumn ((t.setCol "PesoInicio" c1).colCells "PesoFim") with
      | none => exact setCol_colNames t "PesoInicio" c1
      | some c2 =>
          rw [setCol_colNames, setCol_colNames]

/-! ### Claim C10: a numeric weight column defeats the string accessor -/

/-- C10.  If the PesoInicio column holds no string at all (for instance it
already holds numbers) and is nonempty, its pandas dtype is numeric, the
`.str` accessor raises, the whole coercion is marked failed, and the Range
Conflict Detector is skipped: the pipeline still succeeds but its output
carries no 'Erros na Linha' column and no new columns at all — even though
every cell of the column is a valid number. -/
theorem c10_numeric_weight_column_skips_detector (t : RawTable)
    (h9 : t.colNames.length = 9)
    (hall : numericCols.all (fun c => t.hasCol c) = true)
    (hcells : ∀ c ∈ t.colCells "PesoInicio", c.isStr = false)
    (hne : t.colCells "PesoInicio" ≠ [])
    (hnoerr : t.getCol? "Erros na Linha" = none) :
    ∃ s : Styled, styleDataframe t = .ok s
      ∧ s.table.getCol? "Erros na Linha" = none
      ∧ s.table.colNames = t.colNames := by
  have hcw : coerceWeightColumn (t.colCells "PesoInicio") = none :=
    coerceWeightColumn_none_of_numeric hne hcells
  have hflag := (coerceStage_flag_false t hcw).1
  have hcv := checkValues_skip t hall hflag
  refine ⟨_, styleDataframe_of_checkValues t h9 hcv, ?_, ?_⟩
  · show (coerceStage t).1.getCol? "Erros na Linha" = none
    rw [getCol?_coerceStage_erros t, hnoerr]
  · show (coerceStage t).1.colNames = t.colNames
    exact coerceStage_colNames t

/-- Nine-column table whose PesoInicio column already holds a float. -/
def exNumericWeight : RawTable := ⟨[
  ("Nome", [.str "a"]), ("Descricao", [.str "b"]),
  ("CepInicio", [.int 1000]), ("CepFim", [.int 2000]),
  ("PesoInicio", [.float (mkRat 3 2)]), ("PesoFim", [.str "10"]),
  ("Valor", [.int 5]), ("Prazo", [.int 3]), ("DiaUtil", [.str "Sim"])]⟩

/-- Witness for C10 at a concrete table whose PesoInicio column holds the
valid number 1.5 as a float cell. -/
theorem c10_numeric_weight_column_skips_detector_witness :
    ∃ s : Styled, styleDataframe exNumericWeight = .ok s
      ∧ s.table.getCol? "Erros na Linha" = none
      ∧ s.table.colNames = exNumericWeight.colNames :=
  c10_numeric_weight_column_skips_detector exNumericWeight rfl rfl
    (by decide) (by decide) rfl

/-- `_check_values` propagates the `TypeError` of `_check_data_types`. -/
lemma checkValues_dtype_error (t : RawTable)
    (hall : numericCols.all (fun c => t.hasCol c) = true)
    (hflag : (coerceStage t).2 = true)
    {e : PipeErr} (hdt : checkDataTypes (coerceStage t).1 = .error e) :
    checkValues t = .error e := by
  unfold checkValues
  rw [if_pos hall, if_pos hflag, hdt]

/-! ### Claim C6: positional dtype enforcement on positions 2-5 only -/

/-- C6.  `_check_data_types` on a 9-column frame: only positions 2-5 are
enforced, in order, against int64, int64, float64, float64; the first
mismatch raises a `TypeError` naming the offending column, the expected
dtype and the actual dtype; the dtypes at positions 0, 1, 6, 7, 8 never
matter.  Moreover any such error raised after a successful coercion aborts
`style_dataframe` with exactly that error. -/
theorem c6_dtype_enforced_positions_2_to_5
    (d0 d1 d2 d3 d4 d5 d6 d7 d8 : String × List Cell) :
    (checkDataTypes ⟨[d0, d1, d2, d3, d4, d5, d6, d7, d8]⟩ =
      (if DType.int64 ≠ colDType d2.snd then
        Except.error (.wrongDtype d2.fst .int64 (colDType d2.snd))
      else if DType.int64 ≠ colDType d3.snd then
        Except.error (.wrongDtype d3.fst .int64 (colDType d3.snd))
      else if DType.float64 ≠ colDType d4.snd then
        Except.error (.wrongDtype d4.fst .float64 (colDType d4.snd))
      else if DType.float64 ≠ colDType d5.snd then
        Except.error (.wrongDtype d5.fst .float64 (colDType d5.snd))
      else Except.ok ()))
    ∧ (∀ (t0 : RawTable) (e : PipeErr),
        t0.colNames.length = 9 →
        numericCols.all (fun c => t0.hasCol c) = true →
        coerceStage t0 = (⟨[d0, d1, d2, d3, d4, d5, d6, d7, d8]⟩, true) →
        checkDataTypes ⟨[d0, d1, d2, d3, d4, d5, d6, d7, d8]⟩ = .error e →
        styleDataframe t0 = .error e) := by
  constructor
  · show checkDataTypesAux 0 [d0, d1, d2, d3, d4, d5, d6, d7, d8] = _
    simp only [checkDataTypesAux, data_types, List.getD_cons_zero, List.getD_cons_succ]
    norm_num
  · intro t0 e h9 hall hstage hdt
    have hflag : (coerceStage t0).2 = true := by rw [hstage]
    have hdt2 : checkDataTypes (coerceStage t0).1 = .error e := by
      rw [hstage]
      exact hdt
    exact styleDataframe_error_of_checkValues t0 h9
      (checkValues_dtype_error t0 hall hflag hdt2)

/-- Nine-column table whose CepInicio column (position 2) holds a float, so
its dtype is float64 instead of the expected int64. -/
def exTypeErr : RawTable := ⟨[
  ("Nome", [.str "a"]), ("Descricao", [.str "b"]),
  ("CepInicio", [.float 7]), ("CepFim", [.int 2000]),
  ("PesoInicio", [.str "1,5"]), ("PesoFim", [.str "10"]),
  ("Valor", [.int 5]), ("Prazo", [.int 3]), ("DiaUtil", [.str "Sim"])]⟩

/-- Witness for C6 at the concrete table: the position-2 mismatch raises
the structured `TypeError` naming 'CepInicio', int64 and float64, and the
whole pipeline aborts with exactly that error. -/
theorem c6_dtype_enforced_positions_2_to_5_witness :
    checkDataTypes ⟨[("Nome", [.str "a"]), ("Descricao", [.str "b"]),
        ("CepInicio", [.float 7]), ("CepFim", [.int 2000]),
        ("PesoInicio", [.float (mkRat 15 10)]), ("PesoFim", [.float (mkRat 10 1)]),
        ("Valor", [.int 5]), ("Prazo", [.int 3]), ("DiaUtil", [.str "Sim"])]⟩
      = .error (.wrongDtype "CepInicio" .int64 .float64)
    ∧ styleDataframe exTypeErr = .error (.wrongDtype "CepInicio" .int64 .float64) := by
  have h := c6_dtype_enforced_positions_2_to_5
    ("Nome", [.str "a"]) ("Descricao", [.str "b"])
    ("CepInicio", [.float 7]) ("CepFim", [.int 2000])
    ("PesoInicio", [.float (mkRat 15 10)]) ("PesoFim", [.float (mkRat 10 1)])
    ("Valor", [.int 5]) ("Prazo", [.int 3]) ("DiaUtil", [.str "Sim"])
  constructor
  · exact h.1.trans (by rfl)
  · exact h.2 exTypeErr (.wrongDtype "CepInicio" .int64 .float64)
      rfl rfl (by decide) (h.1.trans (by rfl))

/-- Inversion of a successful `style_dataframe` run: the result is the
`_check_values` outcome with the header marks computed from the original
header list (membership test) over the final frame's headers. -/
lemma styleDataframe_ok_inv (t : RawTable) (s : Styled) (h : styleDataframe t = .ok s) :
    ∃ o : CVOut, checkValues t = .ok o
      ∧ s = ⟨o.table, o.allColumns, o.cellMarks, o.rowMarks,
          headerMarksOf t.colNames o.table.colNames⟩
      ∧ canonicalNames.length = t.colNames.length := by
  unfold styleDataframe at h
  split at h
  · exact absurd h (by simp)
  · next hcond =>
      split at h
      · exact absurd h (by simp)
      · next o heq =>
          injection h with h2
          exact ⟨o, heq, h2.symm, not_ne_iff.mp hcond⟩

lemma getD_map_lt {α β : Type} (f : α → β) (l : List α) (k : Nat) (d : α) (db : β)
    (hk : k < l.length) :
    (l.map f).getD k db = f (l.getD k d) := by
  rw [List.getD_eq_getElem?_getD, List.getElem?_map, List.getD_eq_getElem?_getD,
    List.getElem?_eq_getElem hk]
  rfl

/-- C9 (amended).  The Header Name Checker marks a header of the final
frame exactly when the original header sequence differs from the canonical
one AND the header's name is not a member of the canonical list: the test
is membership in the list, not comparison with the canonical name at the
header's position. -/
theorem c9_header_marked_iff_name_not_member (t : RawTable) (s : Styled)
    (h : styleDataframe t = .ok s) (k : Nat) (hk : k < s.table.colNames.length) :
    s.headerMarks.getD k false
      = (decide (t.colNames ≠ canonicalNames)
          && decide (s.table.colNames.getD k "" ∉ canonicalNames)) := by
  rcases styleDataframe_ok_inv t s h with ⟨o, _, hs, _⟩
  subst hs
  dsimp only at hk ⊢
  unfold headerMarksOf
  by_cases heq : t.colNames = canonicalNames
  · rw [if_pos heq, getD_map_lt _ _ _ "" _ hk]
    simp [heq]
  · rw [if_neg heq, getD_map_lt _ _ _ "" _ hk]
    simp [heq]

/-- Nine-column table whose CepInicio / CepFim headers sit at each other's
canonical positions (positions 2 and 3 swapped). -/
def exSwapHeaders : RawTable := ⟨[
  ("Nome", [.str "a"]), ("Descricao", [.str "b"]),
  ("CepFim", [.int 2000]), ("CepInicio", [.int 1000]),
  ("PesoInicio", [.str "1,5"]), ("PesoFim", [.str "10"]),
  ("Valor", [.int 5]), ("Prazo", [.int 3]), ("DiaUtil", [.str "Sim"])]⟩

/-- Counterexample for C9 as stated: position 2 of `exSwapHeaders` carries
the name 'CepFim' while the canonical name at position 2 is 'CepInicio' —
a positional mismatch — yet the pipeline leaves that header unmarked,
because both swapped names are still members of the canonical list. -/
theorem c9_counterexample_swapped_canonical_names_unmarked :
    (styleDataframe exSwapHeaders).map (fun s => s.headerMarks.getD 2 false) = .ok false
      ∧ exSwapHeaders.colNames.getD 2 "" = "CepFim"
      ∧ canonicalNames.getD 2 "" = "CepInicio" :=
  ⟨rfl, rfl, rfl⟩

/-- Nine-column table without the six numeric columns (degraded mode). -/
def exDegraded : RawTable := ⟨[
  ("A", []), ("B", []), ("C", []), ("D", []), ("E", []),
  ("F", []), ("G", []), ("H", []), ("I", [])]⟩

/-- Witness for C9 (amended) at `exDegraded`: header 'A' is not a member of
the canonical list and the original sequence differs from it, so position 0
is marked. -/
theorem c9_header_marked_iff_name_not_member_witness :
    (⟨exDegraded, false, none, none,
        headerMarksOf exDegraded.colNames exDegraded.colNames⟩ : Styled).headerMarks.getD 0 false
      = true := by
  have h := c9_header_marked_iff_name_not_member exDegraded
    ⟨exDegraded, false, none, none,
      headerMarksOf exDegraded.colNames exDegraded.colNames⟩
    rfl 0 (by decide)
  exact h.trans (by decide)

/-! ### Claim C7: running the pipeline twice -/

/-- Dropping the RowErrors column before feeding the annotated table back
into the pipeline ("ignoring the RowErrors column on the second pass"). -/
def dropErros (t : RawTable) : RawTable :=
  ⟨t.cols.filter (fun c => decide (c.fst ≠ "Erros na Linha"))⟩

lemma checkValues_ok_inv (t : RawTable) (o : CVOut) (h : checkValues t = .ok o) :
    (o.table = t ∧ numericCols.all (fun c => t.hasCol c) = false)
    ∨ (o.table = (coerceStage t).1 ∧ (coerceStage t).2 = false
        ∧ numericCols.all (fun c => t.hasCol c) = true)
    ∨ (o.table = writeBack (coerceStage t).1
          (runDetector ⟨toRows (coerceStage t).1, false⟩).rows
        ∧ (coerceStage t).2 = true
        ∧ numericCols.all (fun c => t.hasCol c) = true) := by
  unfold checkValues at h
  by_cases hall : numericCols.all (fun c => t.hasCol c) = true
  · rw [if_pos hall] at h
    by_cases hflag : (coerceStage t).2 = true
    · rw [if_pos hflag] at h
      cases hdt : checkDataTypes (coerceStage t).1 with
      | error e => rw [hdt] at h; exact absurd h (by simp)
      | ok u =>
          rw [hdt] at h
          injection h with h2
          subst h2
          exact Or.inr (Or.inr ⟨rfl, hflag, hall⟩)
    · rw [if_neg hflag] at h
      injection h with h2
      subst h2
      exact Or.inr (Or.inl ⟨rfl, Bool.not_eq_true _ ▸ hflag, hall⟩)
  · rw [if_neg hall] at h
    injection h with h2
    subst h2
    exact Or.inl ⟨rfl, Bool.not_eq_true _ ▸ hall⟩

lemma map_getD_range (cells : List Cell) (d : Cell) :
    (List.range cells.length).map (fun i => cells.getD i d) = cells := by
  induction cells with
  | nil => rfl
  | cons a l ih =>
      rw [List.length_cons, List.range_succ_eq_map, List.map_cons, List.map_map]
      have h1 : (a :: l).getD 0 d = a := rfl
      rw [h1]
      refine congrArg (List.cons a) ?_
      have h2 : ((fun i => (a :: l).getD i d) ∘ Nat.succ) = (fun i => l.getD i d) :=
        funext (fun i => List.getD_cons_succ)
      rw [h2]
      exact ih

lemma toRows_idx (t1 : RawTable) :
    (toRows t1).map RRow.idx = List.range (t1.colCells "CepInicio").length := by
  unfold toRows
  rw [List.map_map]
  exact (List.map_congr_left (fun i _ => rfl)).trans (List.map_id _)

lemma runDetector_idx (t1 : RawTable) :
    (runDetector ⟨toRows t1, false⟩).rows.map RRow.idx
      = List.range (t1.colCells "CepInicio").length := by
  have hidx : ((⟨toRows t1, false⟩ : DFrame).rows.map RRow.idx).Pairwise (· < ·) := by
    show ((toRows t1).map RRow.idx).Pairwise (· < ·)
    rw [toRows_idx]
    exact List.pairwise_lt_range _
  rw [runDetector_rows_eq _ hidx, List.map_map]
  have h1 : (ensureRows ⟨toRows t1, false⟩).map
        (RRow.idx ∘ fullAnnot (ensureRows ⟨toRows t1, false⟩))
      = (ensureRows ⟨toRows t1, false⟩).map RRow.idx :=
    List.map_congr_left (fun a _ => idx_fullAnnot _ a)
  rw [h1, idx_ensure]
  exact toRows_idx t1

lemma writeBack_cols (t1 : RawTable) (rows : List RRow) (n : Nat)
    (hidx : rows.map RRow.idx = List.range n)
    (hu : ∀ c ∈ t1.cols, c.snd.length = n) :
    (writeBack t1 rows).cols
      = t1.cols ++ [("Erros na Linha", rows.map (fun r => Cell.str r.erros))] := by
  show (t1.cols.map (fun c => (c.fst, rows.map (fun r => c.snd.getD r.idx (.str "")))))
      ++ [("Erros na Linha", rows.map (fun r => Cell.str r.erros))] = _
  refine congrArg (fun l => l ++ [("Erros na Linha", rows.map (fun r => Cell.str r.erros))]) ?_
  refine (List.map_congr_left ?_).trans (List.map_id _)
  intro c hc
  have hlen := hu c hc
  have hcells : rows.map (fun r => c.snd.getD r.idx (.str "")) = c.snd := by
    have h2 : rows.map (fun r => c.snd.getD r.idx (.str ""))
        = (rows.map RRow.idx).map (fun i => c.snd.getD i (.str "")) := by
      rw [List.map_map]
      rfl
    rw [h2, hidx, ← hlen, map_getD_range]
  rw [hcells]
  exact Prod.mk.eta

lemma dropErros_append_erros (t2 t1 : RawTable) (X : List Cell)
    (hcols : t2.cols = t1.cols ++ [("Erros na Linha", X)])
    (hnoerr : t1.getCol? "Erros na Linha" = none) :
    dropErros t2 = t1 := by
  unfold dropErros
  rw [hcols]
  cases t1 with
  | mk cols =>
      refine congrArg RawTable.mk ?_
      show (cols ++ [("Erros na Linha", X)]).filter _ = cols
      rw [List.filter_append]
      have h2 : [(("Erros na Linha" : String), X)].filter
          (fun c => decide (c.fst ≠ "Erros na Linha")) = [] := by simp
      have hfind : cols.find? (fun c => decide (c.fst = "Erros na Linha")) = none := by
        unfold RawTable.getCol? at hnoerr
        cases hf : cols.find? (fun c => decide (c.fst = "Erros na Linha")) with
        | none => rfl
        | some c =>
            rw [hf] at hnoerr
            exact absurd hnoerr (by simp)
      have h1 : cols.filter (fun c => decide (c.fst ≠ "Erros na Linha")) = cols := by
        rw [List.filter_eq_self]
        intro a ha
        have hne := List.find?_eq_none.mp hfind a ha
        simp only [decide_eq_true_eq] at hne ⊢
        exact hne
      rw [h1, h2, List.append_nil]

lemma coerceStage_true_inv (t : RawTable) (h : (coerceStage t).2 = true) :
    ∃ c1 c2, coerceWeightColumn (t.colCells "PesoInicio") = some c1
      ∧ coerceWeightColumn ((t.setCol "PesoInicio" c1).colCells "PesoFim") = some c2
      ∧ (coerceStage t).1 = (t.setCol "PesoInicio" c1).setCol "PesoFim" c2 := by
  cases hc1 : coerceWeightColumn (t.colCells "PesoInicio") with
  | none =>
      have hf := (coerceStage_flag_false t hc1).1
      rw [hf] at h
      exact absurd h Bool.false_ne_true
  | some c1 =>
      have h1 : coerceStep (t, true) "PesoInicio" = (t.setCol "PesoInicio" c1, true) := by
        rw [coerceStep_pair, hc1]
      cases hc2 : coerceWeightColumn ((t.setCol "PesoInicio" c1).colCells "PesoFim") with
      | none =>
          exfalso
          rw [coerceStage_eq, h1, coerceStep_pair, hc2] at h
          exact Bool.false_ne_true h
      | some c2 =>
          refine ⟨c1, c2, rfl, hc2, ?_⟩
          rw [coerceStage_eq, h1, coerceStep_pair, hc2]

lemma uniform_setCol {t : RawTable} {n : Nat} {nm : String} {cells : List Cell}
    (hu : ∀ c ∈ t.cols, c.snd.length = n) (hc : cells.length = n) :
    ∀ c ∈ (t.setCol nm cells).cols, c.snd.length = n := by
  intro c hcm
  have hcm2 : c ∈ t.cols.map (fun a => if a.fst = nm then (a.fst, cells) else a) := hcm
  rcases List.mem_map.mp hcm2 with ⟨a, ha, rfl⟩
  by_cases h : a.fst = nm
  · rw [if_pos h]
    exact hc
  · rw [if_neg h]
    exact hu a ha

lemma colCells_length_of_uniform {t : RawTable} {n : Nat}
    (hu : ∀ c ∈ t.cols, c.snd.length = n) {m : String}
    (hm : t.hasCol m = true) : (t.colCells m).length = n := by
  unfold RawTable.hasCol at hm
  unfold RawTable.colCells
  cases hf : t.cols.find? (fun c => decide (c.fst = m)) with
  | none =>
      exfalso
      unfold RawTable.getCol? at hm
      rw [hf] at hm
      simp at hm
  | some c =>
      have hemem := List.mem_of_find?_eq_some hf
      have : t.getCol? m = some c.snd := by
        unfold RawTable.getCol?
        rw [hf]
        rfl
      rw [this]
      exact hu c hemem

lemma coerceWeightColumn_length {l v : List Cell}
    (h : coerceWeightColumn l = some v) : v.length = l.length :=
  coerceCells_length (coerceWeightColumn_some_nonstr h)

/-- C7 (amended).  Feeding the annotated output back into the pipeline with
the RowErrors column dropped does NOT reproduce the RowErrors content:
after the first run the two weight columns hold floats, so the second run's
`.str` coercion fails, the Range Conflict Detector is skipped, and the
second output carries no 'Erros na Linha' column at all.  In particular no
Pass-1 / Pass-2 message is ever duplicated — but only because the second
run produces none. -/
theorem c7_second_run_skips_detector (t : RawTable) (n : Nat)
    (s : Styled) (es : List Cell)
    (hu : ∀ c ∈ t.cols, c.snd.length = n)
    (hn : 0 < n)
    (hnoerr : t.getCol? "Erros na Linha" = none)
    (hok : styleDataframe t = .ok s)
    (hdet : s.table.getCol? "Erros na Linha" = some es) :
    ∃ s2 : Styled, styleDataframe (dropErros s.table) = .ok s2
      ∧ s2.table.getCol? "Erros na Linha" = none := by
  rcases styleDataframe_ok_inv t s hok with ⟨o, hcv, hs, hlen⟩
  have hstable : s.table = o.table := by rw [hs]
  rcases checkValues_ok_inv t o hcv with ⟨h1, _⟩ | ⟨h1, _, _⟩ | ⟨h1, hflag, hall⟩
  · exfalso
    rw [hstable, h1, hnoerr] at hdet
    exact Option.noConfusion hdet
  · exfalso
    rw [hstable, h1, getCol?_coerceStage_erros t, hnoerr] at hdet
    exact Option.noConfusion hdet
  · rcases coerceStage_true_inv t hflag with ⟨c1, c2, hc1, hc2, hcs1⟩
    have h9t : t.colNames.length = 9 := by
      have h9 : canonicalNames.length = 9 := rfl
      rw [h9] at hlen
      exact hlen.symm
    have hallmem : ∀ m ∈ numericCols, t.hasCol m = true := by
      intro m hm
      exact List.all_eq_true.mp hall m hm
    have hp1col : t.hasCol "PesoInicio" = true := hallmem _ (by decide)
    have hlenp1 : (t.colCells "PesoInicio").length = n :=
      colCells_length_of_uniform hu hp1col
    have hc1len : c1.length = n := by rw [coerceWeightColumn_length hc1, hlenp1]
    have huA : ∀ c ∈ (t.setCol "PesoInicio" c1).cols, c.snd.length = n :=
      uniform_setCol hu hc1len
    have hp2colA : (t.setCol "PesoInicio" c1).hasCol "PesoFim" = true := by
      rw [hasCol_iff_mem, setCol_colNames]
      exact (hasCol_iff_mem t "PesoFim").mp (hallmem _ (by decide))
    have hc2len : c2.length = n := by
      rw [coerceWeightColumn_length hc2]
      exact colCells_length_of_uniform huA hp2colA
    set T1 := (t.setCol "PesoInicio" c1).setCol "PesoFim" c2 with hT1def
    have huT1 : ∀ c ∈ T1.cols, c.snd.length = n := uniform_setCol huA hc2len
    have hT1names : T1.colNames = t.colNames := by
      rw [hT1def, setCol_colNames, setCol_colNames]
    have hT1noerr : T1.getCol? "Erros na Linha" = none := by
      rw [hT1def, getCol?_setCol_ne _ _ (by decide), getCol?_setCol_ne _ _ (by decide),
        hnoerr]
    have hT1cep : T1.hasCol "CepInicio" = true := by
      rw [hasCol_iff_mem, hT1names]
      exact (hasCol_iff_mem t "CepInicio").mp (hallmem _ (by decide))
    have hcepLen : (T1.colCells "CepInicio").length = n :=
      colCells_length_of_uniform huT1 hT1cep
    have hrowsidx : (runDetector ⟨toRows T1, false⟩).rows.map RRow.idx = List.range n := by
      rw [runDetector_idx, hcepLen]
    have hwb : s.table = writeBack T1 (runDetector ⟨toRows T1, false⟩).rows := by
      rw [hstable, h1, hcs1]
    have hwbcols : s.table.cols = T1.cols
        ++ [("Erros na Linha",
            (runDetector ⟨toRows T1, false⟩).rows.map (fun r => Cell.str r.erros))] := by
      rw [hwb]
      exact writeBack_cols T1 _ n hrowsidx huT1
    have hdrop : dropErros s.table = T1 :=
      dropErros_append_erros s.table T1 _ hwbcols hT1noerr
    have h9T1 : T1.colNames.length = 9 := by rw [hT1names, h9t]
    have hallT1 : numericCols.all (fun c => T1.hasCol c) = true := by
      rw [List.all_eq_true]
      intro m hm
      show T1.hasCol m = true
      rw [hasCol_iff_mem, hT1names, ← hasCol_iff_mem]
      exact hallmem m hm
    have hT1p1 : T1.getCol? "PesoInicio" = some c1 := by
      rw [hT1def, getCol?_setCol_ne _ _ (by decide)]
      exact getCol?_setCol_self t "PesoInicio" c1 hp1col
    have hT1p1cells : T1.colCells "PesoInicio" = c1 := by
      unfold RawTable.colCells
      rw [hT1p1]
      rfl
    have hc1ne : c1 ≠ [] := by
      intro hnil
      rw [hnil] at hc1len
      exact absurd hc1len.symm (Nat.ne_of_gt hn)
    have hc1str : ∀ c ∈ c1, c.isStr = false :=
      coerceCells_not_str (coerceWeightColumn_some_nonstr hc1)
    have hcwT1 : coerceWeightColumn (T1.colCells "PesoInicio") = none := by
      rw [hT1p1cells]
      exact coerceWeightColumn_none_of_numeric hc1ne hc1str
    have hflagT1 := (coerceStage_flag_false T1 hcwT1).1
    have hcvT1 := checkValues_skip T1 hallT1 hflagT1
    refine ⟨⟨(coerceStage T1).1, true, some (formatWrongDtype (coerceStage T1).1),
      some (formatRange (coerceStage T1).1),
      headerMarksOf T1.colNames (coerceStage T1).1.colNames⟩, ?_, ?_⟩
    · rw [hdrop]
      exact styleDataframe_of_checkValues T1 h9T1 hcvT1
    · show (coerceStage T1).1.getCol? "Erros na Linha" = none
      rw [getCol?_coerceStage_erros, hT1noerr]

/-- Two-row table with a CEP conflict, fully parseable weights. -/
def exConflictRun : RawTable := ⟨[
  ("Nome", [.str "a", .str "b"]), ("Descricao", [.str "c", .str "d"]),
  ("CepInicio", [.int 1000, .int 1500]), ("CepFim", [.int 2000, .int 2500]),
  ("PesoInicio", [.str "1,5", .str "2,5"]), ("PesoFim", [.str "10", .str "20"]),
  ("Valor", [.int 5, .int 6]), ("Prazo", [.int 3, .int 4]),
  ("DiaUtil", [.str "Sim", .str "Nao"])]⟩

/-- The RowErrors column produced by running the pipeline a second time on
the annotated output with the RowErrors column dropped. -/
def rerunErrosColumn (t : RawTable) : Except PipeErr (Option (List Cell)) :=
  match styleDataframe t with
  | .error e => .error e
  | .ok s =>
      match styleDataframe (dropErros s.table) with
      | .error e => .error e
      | .ok s2 => .ok (s2.table.getCol? "Erros na Linha")

/-- Counterexample for C7 as stated: one run of the pipeline on
`exConflictRun` annotates row 0 with 'CEP: 1'; running the pipeline again
on the annotated table (RowErrors dropped) produces NO RowErrors column at
all, so the double run's RowErrors content is not identical to the single
run's. -/
theorem c7_counterexample_second_run_differs :
    (styleDataframe exConflictRun).map (fun s => s.table.getCol? "Erros na Linha")
        = .ok (some [Cell.str "CEP: 1", Cell.str ""])
      ∧ rerunErrosColumn exConflictRun = .ok none
      ∧ some [Cell.str "CEP: 1", Cell.str ""] ≠ (none : Option (List Cell)) :=
  ⟨rfl, rfl, by simp⟩

/-- One-row table with canonical headers and parseable weights. -/
def exOneRow : RawTable := ⟨[
  ("Nome", [.str "a"]), ("Descricao", [.str "b"]),
  ("CepInicio", [.int 1000]), ("CepFim", [.int 2000]),
  ("PesoInicio", [.str "1,5"]), ("PesoFim", [.str "10"]),
  ("Valor", [.int 5]), ("Prazo", [.int 3]), ("DiaUtil", [.str "Sim"])]⟩

/-- The annotated output of one pipeline run on `exOneRow`. -/
def exOneRowStyled : Styled := ⟨
  ⟨[("Nome", [.str "a"]), ("Descricao", [.str "b"]),
    ("CepInicio", [.int 1000]), ("CepFim", [.int 2000]),
    ("PesoInicio", [.float (mkRat 15 10)]), ("PesoFim", [.float (mkRat 10 1)]),
    ("Valor", [.int 5]), ("Prazo", [.int 3]), ("DiaUtil", [.str "Sim"]),
    ("Erros na Linha", [.str ""])]⟩,
  true,
  some [[false], [false], [false], [false], [false], [false], [false], [false], [false], [false]],
  some (.ok [false]),
  [false, false, false, false, false, false, false, false, false, false]⟩

/-- Witness for C7 (amended) at `exOneRow`: the first run annotates the
table (empty message, but the RowErrors column exists); the second run on
the dropped table succeeds and carries no RowErrors column. -/
theorem c7_second_run_skips_detector_witness :
    ∃ s2 : Styled, styleDataframe (dropErros exOneRowStyled.table) = .ok s2
      ∧ s2.table.getCol? "Erros na Linha" = none :=
  c7_second_run_skips_detector exOneRow 1 exOneRowStyled [Cell.str ""]
    (by decide) (by decide) rfl rfl rfl
